import Mathlib

/-!
Shallow embedding of the falling-block (Tetris) game engine of this
repository.  The state-machine operations (`movePiece`, `rotate`,
`hardDrop`, `togglePause`, `startGame`) and the render overlay
(`displayBoard`) are translated from
`src/examples/11-tetris/app/components/TetrisGame.tsx` and
`src/examples/11-tetris/app/components/Board.tsx`.  The helper library
(`app/lib/gameLogic.ts`, `app/lib/tetrominos.ts`) is not among the
available sources, so those functions are modelled from the
specification, as marked on each definition.
-/

namespace Tetris

/-- A grid cell: `none` is empty, `some c` holds an opaque color token. -/
abbrev Cell := Option String

/-- The playing field: a list of rows, each row a list of cells. -/
abbrev Board := List (List Cell)

structure Position where
  x : Int
  y : Int
deriving DecidableEq

structure Tetromino where
  type : String
  shape : List (List Nat)
  position : Position
  color : String
deriving DecidableEq

structure GameState where
  board : Board
  currentPiece : Option Tetromino
  nextPiece : Option Tetromino
  score : Nat
  level : Nat
  lines : Nat
  gameOver : Bool
  paused : Bool
deriving DecidableEq

/-- Modelled from the spec: the fixed grid width (10-wide grid in the
end-to-end scenarios; `BOARD_WIDTH` of `gameLogic.ts`, not in sources). -/
def BOARD_WIDTH : Nat := 10

/-- Modelled from the spec: the fixed grid height (20-tall grid in the
end-to-end scenarios; `BOARD_HEIGHT` of `gameLogic.ts`, not in sources). -/
def BOARD_HEIGHT : Nat := 20

/-- Modelled from the spec: `create empty grid` — all cells empty,
fixed dimensions (`createEmptyBoard` of `gameLogic.ts`, not in sources). -/
def createEmptyBoard : Board :=
  List.replicate BOARD_HEIGHT (List.replicate BOARD_WIDTH (none : Cell))

/-- The occupied cells of a shape mask, as (x, y) offsets relative to the
piece origin: entry `shape[y][x] ≠ 0` contributes the offset `(x, y)`. -/
def shapeCells (shape : List (List Nat)) : List (Int × Int) :=
  (shape.enum.map (fun yr =>
    yr.2.enum.filterMap (fun xv =>
      if xv.2 ≠ 0 then some ((xv.1 : Int), (yr.1 : Int)) else none))).flatten

/-- The in-bounds test of the grid: `[0, BOARD_WIDTH) × [0, BOARD_HEIGHT)`. -/
def inBounds (x y : Int) : Bool :=
  decide (0 ≤ x ∧ x < (BOARD_WIDTH : Int) ∧ 0 ≤ y ∧ y < (BOARD_HEIGHT : Int))

/-- Cell lookup at absolute coordinates; out-of-range reads give `none`. -/
def cellAt (b : Board) (x y : Int) : Cell :=
  if 0 ≤ x ∧ 0 ≤ y then (((b.get? y.toNat).getD []).get? x.toNat).getD none
  else none

/-- Modelled from the spec: `is valid placement(grid, piece, dx, dy)` —
true iff every occupied cell, shifted by (dx, dy) from the piece origin,
lies within `[0,width)×[0,height)` and targets an empty grid cell
(`isValidMove` of `gameLogic.ts`, not in sources; its TypeScript
signature defaults dx and dy to 0, callers passing two arguments mean
`dx = 0, dy = 0`). -/
def isValidMove (b : Board) (p : Tetromino) (dx dy : Int) : Bool :=
  (shapeCells p.shape).all (fun q =>
    inBounds (p.position.x + q.1 + dx) (p.position.y + q.2 + dy) &&
    (cellAt b (p.position.x + q.1 + dx) (p.position.y + q.2 + dy)).isNone)

/-- Does the piece, at its current origin, cover absolute cell (x, y)? -/
def coversCell (p : Tetromino) (x y : Int) : Bool :=
  (shapeCells p.shape).any (fun q =>
    p.position.x + q.1 == x && p.position.y + q.2 == y)

/-- Overwrite, in one row starting at column index `x0`, every cell whose
absolute coordinates satisfy `cond` with the color token. -/
def setCellsRow (cond : Int → Int → Bool) (color : String) (y : Int) :
    List Cell → Int → List Cell
  | [], _ => []
  | c :: t, x => (if cond x y then some color else c) :: setCellsRow cond color y t (x + 1)

/-- Overwrite, over all rows starting at row index `y0`, every cell whose
absolute coordinates satisfy `cond` with the color token. -/
def setCellsGo (cond : Int → Int → Bool) (color : String) :
    Board → Int → Board
  | [], _ => []
  | r :: t, y => setCellsRow cond color y r 0 :: setCellsGo cond color t (y + 1)

/-- Modelled from the spec: `merge piece into grid` — a new grid identical
to the input except the piece's occupied cells (at its current origin) are
set to the piece's color token (`mergePieceToBoard` of `gameLogic.ts`,
not in sources). -/
def mergePieceToBoard (b : Board) (p : Tetromino) : Board :=
  setCellsGo (fun x y => coversCell p x y) p.color b 0

/-- A row is full iff every cell in it is non-empty. -/
def isFullRow (row : List Cell) : Bool :=
  row.all (fun c => c.isSome)

/-- Modelled from the spec: `clear full lines` — all full rows are removed
simultaneously, remaining rows retain their relative order at the bottom,
and that many empty rows are inserted at the top; the count of removed
rows is returned alongside (`clearLines` of `gameLogic.ts`, not in
sources; the pair is (board, linesCleared)). -/
def clearLines (b : Board) : Board × Nat :=
  let remaining := b.filter (fun r => !(isFullRow r))
  let cleared := b.length - remaining.length
  (List.replicate cleared (List.replicate BOARD_WIDTH (none : Cell)) ++ remaining, cleared)

/-- Modelled from the spec: `compute score delta` — a fixed per-line-count
reward table scaled by `(currentLevel + 1)`; the concrete base values
follow the classic table, the claims under proof depend only on the
function being applied at the stated arguments (`calculateScore` of
`gameLogic.ts`, not in sources). -/
def calculateScore (linesCleared level : Nat) : Nat :=
  (match linesCleared with
   | 1 => 40
   | 2 => 100
   | 3 => 300
   | 4 => 1200
   | _ => 0) * (level + 1)

/-- Modelled from the spec: `compute level` — a deterministic,
monotonically non-decreasing function of the total cleared lines, a fixed
number of lines per level (`calculateLevel` of `gameLogic.ts`, not in
sources). -/
def calculateLevel (totalLines : Nat) : Nat :=
  totalLines / 10

/-- Clockwise rotation of a shape mask: transpose, then reverse each row. -/
def rotateShape (s : List (List Nat)) : List (List Nat) :=
  s.transpose.map List.reverse

/-- Modelled from the spec: `rotate(piece)` — a new piece with the next
rotation mask in its kind's rotation cycle, same origin; validity is the
caller's responsibility (`rotateTetromino` of `tetrominos.ts`, not in
sources). -/
def rotateTetromino (p : Tetromino) : Tetromino :=
  { p with shape := rotateShape p.shape }

/-- A piece with its origin shifted by (dx, dy), shape unchanged. -/
def shiftPiece (p : Tetromino) (dx dy : Int) : Tetromino :=
  { p with position := ⟨p.position.x + dx, p.position.y + dy⟩ }

/-- From `TetrisGame.tsx` (`movePiece`).  Piece generation is random in the
source (`createTetromino()`); the two freshly generated pieces are passed
in as oracle arguments `g1` (the fallback when no next piece is queued)
and `g2` (the new next piece after a lock). -/
def movePiece (g1 g2 : Tetromino) (dx dy : Int) (s : GameState) : GameState :=
  if s.gameOver || s.paused then s
  else
    match s.currentPiece with
    | none => s
    | some cur =>
      let newPiece := shiftPiece cur dx dy
      if isValidMove s.board newPiece 0 0 then
        { s with currentPiece := some newPiece }
      else if 0 < dy then
        -- Lock piece
        let merged := mergePieceToBoard s.board cur
        let cleared := clearLines merged
        let newLines := s.lines + cleared.2
        let newLevel := calculateLevel newLines
        let newScore := s.score + calculateScore cleared.2 s.level
        let nextP := s.nextPiece.getD g1
        -- Check game over
        if !(isValidMove cleared.1 nextP 0 0) then
          { s with board := cleared.1, gameOver := true }
        else
          { board := cleared.1
            currentPiece := some nextP
            nextPiece := some g2
            score := newScore
            level := newLevel
            lines := newLines
            gameOver := false
            paused := false }
      else s

/-- From `TetrisGame.tsx` (`rotate`). -/
def rotate (s : GameState) : GameState :=
  if s.gameOver || s.paused then s
  else
    match s.currentPiece with
    | none => s
    | some cur =>
      let rotated := rotateTetromino cur
      if isValidMove s.board rotated 0 0 then
        { s with currentPiece := some rotated }
      else s

/-- The `while (isValidMove(board, piece, 0, dropDistance + 1))` loop of
`hardDrop` in `TetrisGame.tsx`, with explicit fuel.  Fuel 21 is exact for
every piece with a non-empty occupied-cell set: the loop can only keep
incrementing while every occupied cell stays within the 20-row grid, so
at most 20 increments happen before the test fails. -/
def dropDistanceFrom (b : Board) (p : Tetromino) : Nat → Nat → Nat
  | 0, d => d
  | fuel + 1, d =>
    if isValidMove b p 0 ((d : Int) + 1) then dropDistanceFrom b p fuel (d + 1)
    else d

/-- From `TetrisGame.tsx` (`hardDrop`); `g1 g2` are the piece-generation
oracles forwarded to `movePiece`. -/
def hardDrop (g1 g2 : Tetromino) (s : GameState) : GameState :=
  if s.gameOver || s.paused then s
  else
    match s.currentPiece with
    | none => s
    | some cur =>
      let d := dropDistanceFrom s.board cur 21 0
      if 0 < d then movePiece g1 g2 0 (d : Int) s else s

/-- From `TetrisGame.tsx` (`togglePause`). -/
def togglePause (s : GameState) : GameState :=
  if !s.gameOver then { s with paused := !s.paused } else s

/-- From `TetrisGame.tsx` (`startGame`); the two freshly generated pieces
are oracle arguments. -/
def startGame (g1 g2 : Tetromino) : GameState :=
  { board := createEmptyBoard
    currentPiece := some g1
    nextPiece := some g2
    score := 0
    level := 0
    lines := 0
    gameOver := false
    paused := false }

/-- From `Board.tsx` (`Board` component): the display computation builds a
per-row copy of the board and overlays the current piece's occupied cells
that fall within the fixed bounds. -/
def displayBoard (b : Board) (cp : Option Tetromino) : Board :=
  match cp with
  | none => b.map (fun r => r.map (fun c => c))
  | some p => setCellsGo (fun x y => inBounds x y && coversCell p x y) p.color b 0

/-! ### Concrete fixtures used by witnesses and counterexamples -/

/-- A one-cell test piece at the given origin. -/
def pieceAt (x y : Int) : Tetromino :=
  { type := "O", shape := [[1]], position := ⟨x, y⟩, color := "gold" }

/-- A vertical two-cell test piece at the given origin. -/
def vPieceAt (x y : Int) : Tetromino :=
  { type := "I", shape := [[1], [1]], position := ⟨x, y⟩, color := "cyan" }

/-- A horizontal two-cell test piece at the given origin. -/
def hPieceAt (x y : Int) : Tetromino :=
  { type := "I", shape := [[1, 1]], position := ⟨x, y⟩, color := "cyan" }

def genA : Tetromino := pieceAt 4 0

def genB : Tetromino := pieceAt 5 0

def emptyRow : List Cell := List.replicate 10 none

def fullRow : List Cell := List.replicate 10 (some "gray")

/-- A row full except for its last cell (column 9). -/
def row9 : List Cell := List.replicate 9 (some "gray") ++ [none]

/-- A row with only its first cell (column 0) occupied. -/
def rowHead : List Cell := some "gray" :: List.replicate 9 none

def sW1 : GameState :=
  { board := createEmptyBoard, currentPiece := some (pieceAt 0 19)
    nextPiece := some genA, score := 0, level := 0, lines := 0
    gameOver := false, paused := false }

def sW5 : GameState := { sW1 with gameOver := true }

def sW6 : GameState := { sW1 with paused := true }

def sW7 : GameState := { sW1 with currentPiece := some (hPieceAt 8 19) }

/-! ### Helper lemmas -/

lemma all_ext {α : Type} (l : List α) (f g : α → Bool) (h : ∀ a, f a = g a) :
    l.all f = l.all g := by
  induction l with
  | nil => rfl
  | cons a t ih => simp only [List.all_cons, h a, ih]

/-- Shifting a piece and then testing with zero offset is the same as
testing the original piece with that offset. -/
lemma isValidMove_shiftPiece (b : Board) (p : Tetromino) (dx dy : Int) :
    isValidMove b (shiftPiece p dx dy) 0 0 = isValidMove b p dx dy := by
  unfold isValidMove shiftPiece
  apply all_ext
  intro q
  have hx : p.position.x + dx + q.1 + 0 = p.position.x + q.1 + dx := by ring
  have hy : p.position.y + dy + q.2 + 0 = p.position.y + q.2 + dy := by ring
  simp only [hx, hy]

/-- On a lock event that does not end the game, `movePiece` merges the
piece, clears lines once, updates the counters, activates the queued next
piece and queues the freshly generated one. -/
lemma movePiece_lock_eq (g1 g2 : Tetromino) (dx dy : Int) (s : GameState)
    (cur np : Tetromino)
    (hgo : s.gameOver = false) (hps : s.paused = false)
    (hc : s.currentPiece = some cur) (hdy : 0 < dy)
    (hinv : isValidMove s.board (shiftPiece cur dx dy) 0 0 = false)
    (hnp : s.nextPiece = some np)
    (hok : isValidMove (clearLines (mergePieceToBoard s.board cur)).1 np 0 0 = true) :
    movePiece g1 g2 dx dy s =
      { board := (clearLines (mergePieceToBoard s.board cur)).1
        currentPiece := some np
        nextPiece := some g2
        score := s.score + calculateScore (clearLines (mergePieceToBoard s.board cur)).2 s.level
        level := calculateLevel (s.lines + (clearLines (mergePieceToBoard s.board cur)).2)
        lines := s.lines + (clearLines (mergePieceToBoard s.board cur)).2
        gameOver := false
        paused := false } := by
  simp [movePiece, hgo, hps, hc, hinv, hdy, hnp, hok]

/-- On a lock event whose post-clear board rejects the queued next piece,
`movePiece` only installs the cleared board and sets the terminal flag;
every other field of the state is left as it was. -/
lemma movePiece_lock_gameOver_eq (g1 g2 : Tetromino) (dx dy : Int) (s : GameState)
    (cur np : Tetromino)
    (hgo : s.gameOver = false) (hps : s.paused = false)
    (hc : s.currentPiece = some cur) (hdy : 0 < dy)
    (hinv : isValidMove s.board (shiftPiece cur dx dy) 0 0 = false)
    (hnp : s.nextPiece = some np)
    (hbad : isValidMove (clearLines (mergePieceToBoard s.board cur)).1 np 0 0 = false) :
    movePiece g1 g2 dx dy s =
      { s with board := (clearLines (mergePieceToBoard s.board cur)).1, gameOver := true } := by
  simp [movePiece, hgo, hps, hc, hinv, hdy, hnp, hbad]

/-! ### Claims -/

/-- C5: once the terminal flag is set, `movePiece`, `rotate`, `hardDrop`
and `togglePause` all leave the state unchanged; in particular pause
toggling is not reachable from game over. -/
theorem gameOver_no_mutation (s : GameState) (h : s.gameOver = true)
    (g1 g2 : Tetromino) (dx dy : Int) :
    movePiece g1 g2 dx dy s = s ∧ rotate s = s ∧ hardDrop g1 g2 s = s ∧
      togglePause s = s := by
  refine ⟨?_, ?_, ?_, ?_⟩ <;> simp [movePiece, rotate, hardDrop, togglePause, h]

theorem gameOver_no_mutation_witness :
    movePiece genA genB 0 1 sW5 = sW5 ∧ rotate sW5 = sW5 ∧
      hardDrop genA genB sW5 = sW5 ∧ togglePause sW5 = sW5 :=
  gameOver_no_mutation sW5 rfl genA genB 0 1

/-- C6: while the pause flag is set (and the game is not over),
`movePiece`, `rotate` and `hardDrop` all leave the state unchanged. -/
theorem paused_no_mutation (s : GameState) (hp : s.paused = true)
    (hgo : s.gameOver = false) (g1 g2 : Tetromino) (dx dy : Int) :
    movePiece g1 g2 dx dy s = s ∧ rotate s = s ∧ hardDrop g1 g2 s = s := by
  refine ⟨?_, ?_, ?_⟩ <;> simp [movePiece, rotate, hardDrop, hp]

theorem paused_no_mutation_witness :
    movePiece genA genB 0 1 sW6 = sW6 ∧ rotate sW6 = sW6 ∧
      hardDrop genA genB sW6 = sW6 :=
  paused_no_mutation sW6 rfl rfl genA genB 0 1

/-- C7: in the falling state, a lateral move (dy ≤ 0) or a rotation whose
target placement is invalid is an ordinary no-op: the state is unchanged
and no piece is locked (the operations being total Lean functions, no
exception can be raised). -/
theorem invalid_move_noop (g1 g2 : Tetromino) (dx dy : Int) (s : GameState)
    (cur : Tetromino)
    (hgo : s.gameOver = false) (hps : s.paused = false)
    (hc : s.currentPiece = some cur) (hdy : dy ≤ 0)
    (hmv : isValidMove s.board (shiftPiece cur dx dy) 0 0 = false)
    (hrot : isValidMove s.board (rotateTetromino cur) 0 0 = false) :
    movePiece g1 g2 dx dy s = s ∧ rotate s = s := by
  constructor
  · simp [movePiece, hgo, hps, hc, hmv, not_lt.mpr hdy]
  · simp [rotate, hgo, hps, hc, hrot]

theorem invalid_move_noop_witness :
    movePiece genA genB 1 0 sW7 = sW7 ∧ rotate sW7 = sW7 :=
  invalid_move_noop genA genB 1 0 sW7 (hPieceAt 8 19) rfl rfl rfl (by decide)
    (by decide) (by decide)

/-- Board for the C2 counterexample: column 0 of the top row occupied,
rows 1–18 empty, bottom row full except column 9. -/
def bC2 : Board := rowHead :: (List.replicate 18 emptyRow ++ [row9])

def sC2 : GameState :=
  { board := bC2, currentPiece := some (pieceAt 9 19)
    nextPiece := some (vPieceAt 0 0), score := 0, level := 0, lines := 0
    gameOver := false, paused := false }

/-- Board for the C10 witness: empty except the bottom row, which is full
except column 9. -/
def bW10 : Board := List.replicate 19 emptyRow ++ [row9]

def sW10 : GameState :=
  { board := bW10, currentPiece := some (pieceAt 9 19)
    nextPiece := some genA, score := 123, level := 0, lines := 9
    gameOver := false, paused := false }

/-- C1: a downward move whose shifted piece is invalid locks the active
piece: it is merged into the grid at its last valid position, lines are
cleared exactly once on the merged grid, the line counter grows by the
returned count, the score grows by the score delta at the current level,
the level is recomputed from the new line total, the queued next piece
becomes active and the freshly generated piece becomes the next piece. -/
theorem movePiece_lock_spawns_next (g1 g2 : Tetromino) (dx dy : Int) (s : GameState)
    (cur np : Tetromino)
    (hgo : s.gameOver = false) (hps : s.paused = false)
    (hc : s.currentPiece = some cur) (hdy : 0 < dy)
    (hinv : isValidMove s.board (shiftPiece cur dx dy) 0 0 = false)
    (hnp : s.nextPiece = some np)
    (hok : isValidMove (clearLines (mergePieceToBoard s.board cur)).1 np 0 0 = true) :
    movePiece g1 g2 dx dy s =
      { board := (clearLines (mergePieceToBoard s.board cur)).1
        currentPiece := some np
        nextPiece := some g2
        score := s.score + calculateScore (clearLines (mergePieceToBoard s.board cur)).2 s.level
        level := calculateLevel (s.lines + (clearLines (mergePieceToBoard s.board cur)).2)
        lines := s.lines + (clearLines (mergePieceToBoard s.board cur)).2
        gameOver := false
        paused := false } :=
  movePiece_lock_eq g1 g2 dx dy s cur np hgo hps hc hdy hinv hnp hok

theorem movePiece_lock_spawns_next_witness :
    movePiece genA genB 0 1 sW1 =
      { board := (clearLines (mergePieceToBoard sW1.board (pieceAt 0 19))).1
        currentPiece := some genA
        nextPiece := some genB
        score := sW1.score +
          calculateScore (clearLines (mergePieceToBoard sW1.board (pieceAt 0 19))).2 sW1.level
        level := calculateLevel
          (sW1.lines + (clearLines (mergePieceToBoard sW1.board (pieceAt 0 19))).2)
        lines := sW1.lines + (clearLines (mergePieceToBoard sW1.board (pieceAt 0 19))).2
        gameOver := false
        paused := false } :=
  movePiece_lock_spawns_next genA genB 0 1 sW1 (pieceAt 0 19) genA rfl rfl rfl
    (by decide) (by decide) rfl (by decide)

/-- C2 as stated is false: on a lock event that ends the game, the score,
level and line counters are NOT updated from the clear result.  Here a
lock clears one full line (so the claim predicts a score of 40 and a line
count of 1), the game transitions to game over, yet the resulting score
and line count are still 0. -/
theorem gameOver_lock_counters_cex :
    sC2.gameOver = false ∧ sC2.paused = false ∧
    sC2.currentPiece = some (pieceAt 9 19) ∧
    isValidMove sC2.board (shiftPiece (pieceAt 9 19) 0 1) 0 0 = false ∧
    (clearLines (mergePieceToBoard sC2.board (pieceAt 9 19))).2 = 1 ∧
    isValidMove (clearLines (mergePieceToBoard sC2.board (pieceAt 9 19))).1
      (vPieceAt 0 0) 0 0 = false ∧
    (movePiece genA genB 0 1 sC2).gameOver = true ∧
    (movePiece genA genB 0 1 sC2).score = 0 ∧
    (movePiece genA genB 0 1 sC2).lines = 0 ∧
    sC2.score + calculateScore
      (clearLines (mergePieceToBoard sC2.board (pieceAt 9 19))).2 sC2.level = 40 := by
  decide

/-- C2 (amended): on a lock event whose post-clear grid makes the queued
next piece's initial placement invalid, the game transitions to game over:
the terminal flag is set and the grid retains its post-clear contents,
while the score, level and cleared-line counters (and the piece fields)
retain their pre-lock values — the clear result is not applied to them. -/
theorem gameOver_lock_state (g1 g2 : Tetromino) (dx dy : Int) (s : GameState)
    (cur np : Tetromino)
    (hgo : s.gameOver = false) (hps : s.paused = false)
    (hc : s.currentPiece = some cur) (hdy : 0 < dy)
    (hinv : isValidMove s.board (shiftPiece cur dx dy) 0 0 = false)
    (hnp : s.nextPiece = some np)
    (hbad : isValidMove (clearLines (mergePieceToBoard s.board cur)).1 np 0 0 = false) :
    movePiece g1 g2 dx dy s =
      { s with board := (clearLines (mergePieceToBoard s.board cur)).1
               gameOver := true } ∧
    (movePiece g1 g2 dx dy s).score = s.score ∧
    (movePiece g1 g2 dx dy s).level = s.level ∧
    (movePiece g1 g2 dx dy s).lines = s.lines := by
  have h := movePiece_lock_gameOver_eq g1 g2 dx dy s cur np hgo hps hc hdy hinv hnp hbad
  exact ⟨h, by rw [h], by rw [h], by rw [h]⟩

theorem gameOver_lock_state_witness :
    movePiece genA genB 0 1 sC2 =
      { sC2 with board := (clearLines (mergePieceToBoard sC2.board (pieceAt 9 19))).1
                 gameOver := true } ∧
    (movePiece genA genB 0 1 sC2).score = sC2.score ∧
    (movePiece genA genB 0 1 sC2).level = sC2.level ∧
    (movePiece genA genB 0 1 sC2).lines = sC2.lines :=
  gameOver_lock_state genA genB 0 1 sC2 (pieceAt 9 19) (vPieceAt 0 0) rfl rfl rfl
    (by decide) (by decide) rfl (by decide)

/-- C10: on a lock event that clears lines and does not end the game, the
score delta is computed at the level in effect before the lock, and the
new level is recomputed from the updated line total — even when the newly
cleared lines raise the level in the same event. -/
theorem lock_score_uses_old_level (g1 g2 : Tetromino) (dx dy : Int) (s : GameState)
    (cur np : Tetromino)
    (hgo : s.gameOver = false) (hps : s.paused = false)
    (hc : s.currentPiece = some cur) (hdy : 0 < dy)
    (hinv : isValidMove s.board (shiftPiece cur dx dy) 0 0 = false)
    (hnp : s.nextPiece = some np)
    (hok : isValidMove (clearLines (mergePieceToBoard s.board cur)).1 np 0 0 = true) :
    (movePiece g1 g2 dx dy s).score =
      s.score + calculateScore (clearLines (mergePieceToBoard s.board cur)).2 s.level ∧
    (movePiece g1 g2 dx dy s).level =
      calculateLevel (s.lines + (clearLines (mergePieceToBoard s.board cur)).2) := by
  have h := movePiece_lock_eq g1 g2 dx dy s cur np hgo hps hc hdy hinv hnp hok
  exact ⟨by rw [h], by rw [h]⟩

theorem lock_score_uses_old_level_witness :
    (movePiece genA genB 0 1 sW10).score =
      sW10.score + calculateScore
        (clearLines (mergePieceToBoard sW10.board (pieceAt 9 19))).2 sW10.level ∧
    (movePiece genA genB 0 1 sW10).level =
      calculateLevel
        (sW10.lines + (clearLines (mergePieceToBoard sW10.board (pieceAt 9 19))).2) :=
  lock_score_uses_old_level genA genB 0 1 sW10 (pieceAt 9 19) genA rfl rfl rfl
    (by decide) (by decide) rfl (by decide)

lemma length_filter_add {α : Type} (p : α → Bool) (l : List α) :
    (l.filter p).length + (l.filter (fun a => !(p a))).length = l.length := by
  induction l with
  | nil => rfl
  | cons a t ih =>
    cases h : p a with
    | true =>
      simp [List.filter_cons, h]
      omega
    | false =>
      simp [List.filter_cons, h]
      omega

/-- C3: on a grid with exactly k full rows, `clearLines` reports k cleared
lines and returns a grid of unchanged height consisting of the non-full
rows, in their original relative order, at the bottom, below k all-empty
rows inserted at the top — all full rows removed in the single call. -/
theorem clearLines_full_rows (b : Board) (k : Nat)
    (hk : (b.filter (fun r => isFullRow r)).length = k) :
    (clearLines b).2 = k ∧
    (clearLines b).1.length = b.length ∧
    (clearLines b).1 =
      List.replicate k (List.replicate BOARD_WIDTH (none : Cell)) ++
        b.filter (fun r => !(isFullRow r)) := by
  have hsplit := length_filter_add (fun r => isFullRow r) b
  have h2 : b.length - (b.filter (fun r => !(isFullRow r))).length = k := by omega
  refine ⟨h2, ?_, ?_⟩
  · simp only [clearLines, List.length_append, List.length_replicate]
    omega
  · simp only [clearLines, h2]

theorem clearLines_full_rows_witness :
    (clearLines [fullRow, emptyRow, fullRow, rowHead]).2 = 2 ∧
    (clearLines [fullRow, emptyRow, fullRow, rowHead]).1.length =
      ([fullRow, emptyRow, fullRow, rowHead] : Board).length ∧
    (clearLines [fullRow, emptyRow, fullRow, rowHead]).1 =
      List.replicate 2 (List.replicate BOARD_WIDTH (none : Cell)) ++
        ([fullRow, emptyRow, fullRow, rowHead] : Board).filter
          (fun r => !(isFullRow r)) :=
  clearLines_full_rows [fullRow, emptyRow, fullRow, rowHead] 2 (by decide)

/-- C4: `isValidMove` with zero offset returns true iff every occupied
cell of the piece at its current origin lies within
`[0, BOARD_WIDTH) × [0, BOARD_HEIGHT)` and targets an empty grid cell.
(The function is a pure Boolean predicate on its two inputs, so it is
side-effect-free; `movePiece`, `rotate` and `hardDrop` all consult it.) -/
theorem isValidMove_iff (b : Board) (p : Tetromino) :
    isValidMove b p 0 0 = true ↔
      ∀ q ∈ shapeCells p.shape,
        0 ≤ p.position.x + q.1 ∧ p.position.x + q.1 < (BOARD_WIDTH : Int) ∧
        0 ≤ p.position.y + q.2 ∧ p.position.y + q.2 < (BOARD_HEIGHT : Int) ∧
        cellAt b (p.position.x + q.1) (p.position.y + q.2) = none := by
  simp only [isValidMove, inBounds, List.all_eq_true, Bool.and_eq_true,
    decide_eq_true_eq, Option.isNone_iff_eq_none, add_zero]
  constructor
  · intro h q hq
    have hh := h q hq
    tauto
  · intro h q hq
    have hh := h q hq
    tauto

/-- Board for the C8 counterexample: a single occupied cell at column 0 of
row 10, with empty space both above and below it. -/
def bC8 : Board := List.replicate 10 emptyRow ++ [rowHead] ++ List.replicate 9 emptyRow

def sC8 : GameState :=
  { board := bC8, currentPiece := some (pieceAt 0 8)
    nextPiece := some genA, score := 0, level := 0, lines := 0
    gameOver := false, paused := false }

/-- C8 as stated is false: `hardDrop` does not move the piece by the
maximal distance d with the shift (0, d) valid, but stops just above the
first obstruction.  Here shifting the active piece down by 11 (past the
hole under the lone occupied cell) is a valid placement, yet `hardDrop`
moves it down by only 1. -/
theorem hardDrop_not_maximal_cex :
    sC8.gameOver = false ∧ sC8.paused = false ∧
    sC8.currentPiece = some (pieceAt 0 8) ∧
    isValidMove sC8.board (shiftPiece (pieceAt 0 8) 0 11) 0 0 = true ∧
    (hardDrop genA genB sC8).currentPiece = some (shiftPiece (pieceAt 0 8) 0 1) ∧
    shiftPiece (pieceAt 0 8) 0 1 ≠ shiftPiece (pieceAt 0 8) 0 11 := by
  decide

/-- If the drop-distance loop returns a positive value, the piece shifted
down by that value is a valid placement: the loop only ever advances to a
distance it has just validated. -/
lemma dropDistanceFrom_pos_valid (b : Board) (p : Tetromino) :
    ∀ (fuel d : Nat), (0 < d → isValidMove b p 0 (d : Int) = true) →
      0 < dropDistanceFrom b p fuel d →
      isValidMove b p 0 (dropDistanceFrom b p fuel d : Int) = true := by
  intro fuel
  induction fuel with
  | zero => intro d h hd; exact h hd
  | succ n ih =>
    intro d h hd
    by_cases hv : isValidMove b p 0 ((d : Int) + 1) = true
    · have hstep : dropDistanceFrom b p (n + 1) d = dropDistanceFrom b p n (d + 1) := by
        simp [dropDistanceFrom, hv]
      rw [hstep] at hd ⊢
      refine ih (d + 1) (fun _ => ?_) hd
      have hcast : (((d + 1 : Nat)) : Int) = (d : Int) + 1 := by push_cast; ring
      rw [hcast]
      exact hv
    · have hstep : dropDistanceFrom b p (n + 1) d = d := by
        simp [dropDistanceFrom, hv]
      rw [hstep] at hd ⊢
      exact h hd

/-- C8 (amended): `hardDrop` moves the active piece down by the distance
computed by the source's loop — incrementing from 0 while the next
one-cell-lower shift is a valid placement, i.e. stopping just above the
first obstruction (which equals the maximal valid shift only when every
intermediate shift is valid); it never merges the piece into the grid in
the same call, and when that distance is 0 it leaves the state entirely
unchanged. -/
theorem hardDrop_first_obstruction (g1 g2 : Tetromino) (s : GameState)
    (cur : Tetromino)
    (hgo : s.gameOver = false) (hps : s.paused = false)
    (hc : s.currentPiece = some cur) :
    hardDrop g1 g2 s =
      (if 0 < dropDistanceFrom s.board cur 21 0 then
        { s with
            currentPiece := some (shiftPiece cur 0 (dropDistanceFrom s.board cur 21 0 : Int)) }
      else s) ∧
    (hardDrop g1 g2 s).board = s.board := by
  have hmain : hardDrop g1 g2 s =
      (if 0 < dropDistanceFrom s.board cur 21 0 then
        { s with
            currentPiece := some (shiftPiece cur 0 (dropDistanceFrom s.board cur 21 0 : Int)) }
      else s) := by
    by_cases hd : 0 < dropDistanceFrom s.board cur 21 0
    · rw [if_pos hd]
      have hv := dropDistanceFrom_pos_valid s.board cur 21 0
        (fun hcon => absurd hcon (by omega)) hd
      simp [hardDrop, movePiece, hgo, hps, hc, hd, isValidMove_shiftPiece, hv]
    · rw [if_neg hd]
      simp [hardDrop, hgo, hps, hc, hd]
  refine ⟨hmain, ?_⟩
  rw [hmain]
  by_cases hd : 0 < dropDistanceFrom s.board cur 21 0
  · rw [if_pos hd]
  · rw [if_neg hd]

theorem hardDrop_first_obstruction_witness :
    hardDrop genA genB sC8 =
      (if 0 < dropDistanceFrom sC8.board (pieceAt 0 8) 21 0 then
        { sC8 with
            currentPiece := some (shiftPiece (pieceAt 0 8) 0 (dropDistanceFrom sC8.board (pieceAt 0 8) 21 0 : Int)) }
      else sC8) ∧
    (hardDrop genA genB sC8).board = sC8.board :=
  hardDrop_first_obstruction genA genB sC8 (pieceAt 0 8) rfl rfl rfl

lemma setCellsRow_nth (cond : Int → Int → Bool) (color : String) (y : Int) :
    ∀ (row : List Cell) (x0 : Int) (i : Nat),
      (setCellsRow cond color y row x0).get? i =
        (row.get? i).map (fun c => if cond (x0 + (i : Int)) y then some color else c) := by
  intro row
  induction row with
  | nil => intro x0 i; simp [setCellsRow]
  | cons c t ih =>
    intro x0 i
    cases i with
    | zero => simp [setCellsRow]
    | succ n =>
      have harg : x0 + 1 + (n : Int) = x0 + ((n : Int) + 1) := by ring
      have hcast : ((n + 1 : Nat) : Int) = (n : Int) + 1 := by push_cast; ring
      simp only [setCellsRow, List.get?_cons_succ, ih (x0 + 1) n, harg, hcast]

lemma setCellsGo_nth (cond : Int → Int → Bool) (color : String) :
    ∀ (b : Board) (y0 : Int) (j : Nat),
      (setCellsGo cond color b y0).get? j =
        (b.get? j).map (fun r => setCellsRow cond color (y0 + (j : Int)) r 0) := by
  intro b
  induction b with
  | nil => intro y0 j; simp [setCellsGo]
  | cons r t ih =>
    intro y0 j
    cases j with
    | zero => simp [setCellsGo]
    | succ n =>
      have harg : y0 + 1 + (n : Int) = y0 + ((n : Int) + 1) := by ring
      have hcast : ((n + 1 : Nat) : Int) = (n : Int) + 1 := by push_cast; ring
      simp only [setCellsGo, List.get?_cons_succ, ih (y0 + 1) n, harg, hcast]

lemma list_map_self {α : Type} (l : List α) : l.map (fun c => c) = l := by
  induction l with
  | nil => rfl
  | cons a t ih => simp only [List.map_cons, ih]

lemma board_map_self (b : Board) : b.map (fun r => r.map (fun c => c)) = b := by
  induction b with
  | nil => rfl
  | cons r t ih => simp only [List.map_cons, list_map_self, ih, list_map_self t]

/-- C9: the Board component's display computation overlays the active
piece's in-bounds occupied cells onto a copy of the board — each in-range
cell of the display shows the piece color where the piece covers it and
the board's own cell otherwise — and the input board value is unchanged
by rendering (rendering with no active piece returns the board itself,
and the computation is a pure function of its arguments). -/
theorem displayBoard_overlay (b : Board) (p : Tetromino) (x y : Nat)
    (hlen : b.length = BOARD_HEIGHT) (hrow : ∀ r ∈ b, r.length = BOARD_WIDTH)
    (hx : x < BOARD_WIDTH) (hy : y < BOARD_HEIGHT) :
    cellAt (displayBoard b (some p)) (x : Int) (y : Int) =
      (if coversCell p (x : Int) (y : Int) then some p.color
       else cellAt b (x : Int) (y : Int)) ∧
    displayBoard b none = b := by
  constructor
  · have hx10 : x < 10 := hx
    have hy20 : y < 20 := hy
    have hblen : b.length = 20 := hlen
    cases hrowy : b.get? y with
    | none =>
      have := List.get?_eq_none.mp hrowy
      omega
    | some row =>
      have hrmem : row ∈ b := List.get?_mem hrowy
      have hrlen : row.length = 10 := hrow row hrmem
      cases hcell : row.get? x with
      | none =>
        have := List.get?_eq_none.mp hcell
        omega
      | some c =>
        have hin : inBounds (x : Int) (y : Int) = true := by
          simp only [inBounds, BOARD_WIDTH, BOARD_HEIGHT, decide_eq_true_eq]
          refine ⟨Int.natCast_nonneg x, ?_, Int.natCast_nonneg y, ?_⟩ <;> omega
        have hnn : 0 ≤ (x : Int) ∧ 0 ≤ (y : Int) :=
          ⟨Int.natCast_nonneg x, Int.natCast_nonneg y⟩
        simp only [displayBoard, cellAt, if_pos hnn, Int.toNat_natCast,
          setCellsGo_nth, hrowy, Option.map_some, Option.map_some', Option.getD_some,
          setCellsRow_nth, hcell, zero_add, hin, Bool.true_and]
  · simp only [displayBoard, board_map_self]

theorem displayBoard_overlay_witness :
    cellAt (displayBoard createEmptyBoard (some (pieceAt 3 17)))
        ((3 : Nat) : Int) ((17 : Nat) : Int) =
      (if coversCell (pieceAt 3 17) ((3 : Nat) : Int) ((17 : Nat) : Int) then
        some (pieceAt 3 17).color
       else cellAt createEmptyBoard ((3 : Nat) : Int) ((17 : Nat) : Int)) ∧
    displayBoard createEmptyBoard none = createEmptyBoard :=
  displayBoard_overlay createEmptyBoard (pieceAt 3 17) 3 17 (by decide) (by decide)
    (by decide) (by decide)

end Tetris
